import Mathlib

/-!
Verification development for the fog-hw sensor relay (Rust, two crate
revisions: `src/cloud` — the revision the spec describes — and `src/src`).
Wire strings are modelled as `List Char`; Rust's byte length `str::len` is
`rustLen`.  Numeric f64 values are modelled as exact integer fractions
(`F64`): every decimal literal parses exactly and arithmetic is exact; IEEE
round-to-nearest on parse followed by shortest-round-trip display composes
to the identity on the short decimal literals this protocol carries, which
is what the fraction model reproduces.  Non-finite floats (inf/NaN, and
exponent overflow to infinity) have no fraction value and are modelled as
parse failures.  Storage operations are modelled as pure functions over
list-valued tables; Boolean oracles stand for the success of socket sends
and storage writes where a claim talks about their failure.
-/

abbrev Str := List Char

/-- Rust `str::len`: the byte length of the UTF-8 encoding. -/
def rustLen (s : Str) : Nat := (s.map Char.utf8Size).sum

/-- Model of Rust `msg.split("#")`: the list of `#`-free chunks; always
at least one element, empty input giving `[[]]`, like Rust's splitter. -/
def splitHash : Str → List Str
  | [] => [[]]
  | c :: cs =>
    if c = '#' then [] :: splitHash cs
    else
      match splitHash cs with
      | [] => [[c]]
      | t :: ts => (c :: t) :: ts

/-- First character of a string, `' '` when empty; stands for the
peek-at-next-character accesses in the parser model below. -/
def headCh : Str → Char
  | [] => ' '
  | c :: _ => c

def isDigitCh (c : Char) : Bool := decide ('0' ≤ c) && decide (c ≤ '9')

/-- Longest digit prefix of a string together with the remainder; models
the digit-scanning phase of Rust's numeric `from_str` parsers. -/
def takeDigits : Str → Str × Str
  | [] => ([], [])
  | c :: cs =>
    if isDigitCh c then
      let p := takeDigits cs
      (c :: p.1, p.2)
    else ([], c :: cs)

def natOfDigits (l : Str) : Nat := l.foldl (fun a c => a * 10 + (c.toNat - 48)) 0

/-- Maximal all-digit string with at least one digit, as required after
the optional sign by Rust's integer `from_str` and inside exponents. -/
def parseDigitsAll (s : Str) : Option Nat :=
  let p := takeDigits s
  if p.1 = [] then none
  else if p.2 ≠ [] then none
  else some (natOfDigits p.1)

/-- Rust `i64::from_str`: optional sign, then digits, with the i64 range check. -/
def parseI64 (s : Str) : Option Int :=
  match s with
  | [] => none
  | c :: r =>
    if c = '+' then
      (parseDigitsAll r).bind fun n =>
        if (n : Int) ≤ 2 ^ 63 - 1 then some (n : Int) else none
    else if c = '-' then
      (parseDigitsAll r).bind fun n =>
        if (n : Int) ≤ 2 ^ 63 then some (-(n : Int)) else none
    else
      (parseDigitsAll (c :: r)).bind fun n =>
        if (n : Int) ≤ 2 ^ 63 - 1 then some (n : Int) else none

/-- Exact-value model of a finite f64: an integer fraction.  The fields
are never implicitly normalized, matching the exact arithmetic performed
by the model; display normalizes. -/
structure F64 where
  num : Int
  den : Int
deriving DecidableEq, Repr

/-- Exact value `m * 10 ^ e` as a fraction. -/
def F64.fromDec (m : Int) (e : Int) : F64 :=
  if 0 ≤ e then ⟨m * 10 ^ e.toNat, 1⟩ else ⟨m, 10 ^ (-e).toNat⟩

def F64.neg (x : F64) : F64 := ⟨-x.num, x.den⟩

def F64.add (x y : F64) : F64 := ⟨x.num * y.den + y.num * x.den, x.den * y.den⟩

def F64.divNat (x : F64) (n : Nat) : F64 := ⟨x.num, x.den * (n : Int)⟩

/-- Arithmetic mean exactly as the aggregator computes it: left-fold sum
from 0.0, then divide by the batch size. -/
def F64.mean (l : List F64) : F64 := F64.divNat (l.foldl F64.add ⟨0, 1⟩) l.length

/-- Exponent part of a float literal, after the `e`/`E`: optional sign
then digits. -/
def parseExpAfterE (s : Str) : Option Int :=
  match s with
  | [] => none
  | c :: r =>
    if c = '+' then (parseDigitsAll r).map fun n => (n : Int)
    else if c = '-' then (parseDigitsAll r).map fun n => -(n : Int)
    else (parseDigitsAll (c :: r)).map fun n => (n : Int)

/-- Rust `f64::from_str` after the optional sign:
`digits ['.' digits*] [(e|E) exp]` or `'.' digits+ [(e|E) exp]`, valued
exactly as mantissa × 10^exponent. -/
def parseF64body (s : Str) : Option F64 :=
  let ip := takeDigits s
  let mant : Option (Nat × Nat × Str) :=
    if headCh ip.2 = '.' then
      let fp := takeDigits ip.2.tail
      if ip.1 = [] ∧ fp.1 = [] then none
      else some (natOfDigits (ip.1 ++ fp.1), fp.1.length, fp.2)
    else
      if ip.1 = [] then none
      else some (natOfDigits ip.1, 0, ip.2)
  mant.bind fun w =>
    if w.2.2 = [] then some (F64.fromDec (w.1 : Int) (-(w.2.1 : Int)))
    else if headCh w.2.2 = 'e' ∨ headCh w.2.2 = 'E' then
      (parseExpAfterE w.2.2.tail).map fun e => F64.fromDec (w.1 : Int) (e - (w.2.1 : Int))
    else none

/-- Rust `f64::from_str` (finite values): optional sign then `parseF64body`. -/
def parseF64 (s : Str) : Option F64 :=
  match s with
  | [] => none
  | c :: r =>
    if c = '+' then parseF64body r
    else if c = '-' then (parseF64body r).map F64.neg
    else parseF64body (c :: r)

def natDigitsAux : Nat → Nat → Str
  | 0, _ => []
  | fuel + 1, n => if n = 0 then [] else natDigitsAux fuel (n / 10) ++ [Char.ofNat (48 + n % 10)]

/-- Decimal rendering of a natural number, as Rust's `Display` prints it. -/
def showNat (n : Nat) : Str := if n = 0 then ['0'] else natDigitsAux (n + 1) n

/-- Rust `Display` for `i64`. -/
def showInt (i : Int) : Str := if i < 0 then '-' :: showNat i.natAbs else showNat i.toNat

/-- Least `k` (searching upward from the accumulator) with `d ∣ 10^k`. -/
def findPow10 : Nat → Nat → Nat → Option Nat
  | 0, _, _ => none
  | fuel + 1, k, d => if 10 ^ k % d = 0 then some k else findPow10 fuel (k + 1) d

def padDigits (k : Nat) (m : Nat) : Str :=
  let ds := showNat m
  List.replicate (k - ds.length) '0' ++ ds

/-- Model of Rust's `Display` for a finite f64.  Rust prints the shortest
decimal string that round-trips to the same f64; for a value with a finite
decimal expansion — every finite f64 has one, and the short literals this
protocol carries round-trip exactly — that is the expansion without
trailing zeros, which this computes after normalizing the fraction.  The
fallback branch (a fraction whose decimal expansion does not terminate
within the fuel) is unreachable for values equal to an actual f64. -/
def displayF64 (x : F64) : Str :=
  let neg := decide (x.num * x.den < 0)
  let n := x.num.natAbs
  let d := x.den.natAbs
  let g := Nat.gcd n d
  let n1 := n / g
  let d1 := d / g
  let body :=
    if d1 = 1 then showNat n1
    else
      match findPow10 4096 0 d1 with
      | some k =>
        let t := n1 * 10 ^ k / d1
        showNat (t / 10 ^ k) ++ '.' :: padDigits k (t % 10 ^ k)
      | none => showNat n1 ++ '/' :: showNat d1
  if neg then '-' :: body else body

deriving instance DecidableEq for Except

inductive DecodeErr
  | invalidMessage
  | invalidProtocol
  | invalidId
  | invalidNumber
deriving DecidableEq, Repr

inductive Protocol
  | CONN
  | SENSOR
  | AVG
  | DISCONN
  | INVALID
deriving DecidableEq, Repr

/-- Model of `protocols::get_protocol` (src/cloud/src/protocol.rs:18-28):
split the message on `#` and match the first part against the four known
tags.  The Rust `parts[0]` index is modelled by `headD`; it is in bounds
because the splitter never returns an empty vector (`splitHash_ne_nil`). -/
def get_protocol (msg : Str) : Except DecodeErr Protocol :=
  let parts := splitHash msg
  let p0 := parts.headD []
  if p0 = "CONN".data then Except.ok Protocol.CONN
  else if p0 = "SENSOR".data then Except.ok Protocol.SENSOR
  else if p0 = "AVG".data then Except.ok Protocol.AVG
  else if p0 = "DISCONN".data then Except.ok Protocol.DISCONN
  else Except.error DecodeErr.invalidProtocol

structure ConnMsg where
  uid : Str
deriving DecidableEq, Repr

/-- Model of `ConnMsg::from_msg` (src/cloud/src/protocol.rs:34-63): arity
must be exactly 2, the tag must be `CONN`, the uid must be exactly 36
bytes.  `parts[1].parse::<String>()` is the identity and never fails. -/
def ConnMsg.from_msg (msg : Str) : Except DecodeErr ConnMsg :=
  let parts := splitHash msg
  if parts.length ≠ 2 then Except.error DecodeErr.invalidMessage
  else if parts.headD [] ≠ "CONN".data then Except.error DecodeErr.invalidProtocol
  else if rustLen (parts.getD 1 []) ≠ 36 then Except.error DecodeErr.invalidId
  else Except.ok ⟨parts.getD 1 []⟩

structure SensorMsg where
  uid : Str
  data : F64
  timestamp : Int
deriving DecidableEq, Repr

/-- Model of `SensorMsg::from_msg` (src/cloud/src/protocol.rs:71-105):
arity must be exactly 4, the tag `SENSOR`, the uid exactly 36 bytes, then
the timestamp parses as i64 and the value as f64. -/
def SensorMsg.from_msg (msg : Str) : Except DecodeErr SensorMsg :=
  let parts := splitHash msg
  if parts.length ≠ 4 then Except.error DecodeErr.invalidMessage
  else if parts.headD [] ≠ "SENSOR".data then Except.error DecodeErr.invalidProtocol
  else if rustLen (parts.getD 1 []) ≠ 36 then Except.error DecodeErr.invalidId
  else
    match parseI64 (parts.getD 2 []) with
    | none => Except.error DecodeErr.invalidNumber
    | some ts =>
      match parseF64 (parts.getD 3 []) with
      | none => Except.error DecodeErr.invalidNumber
      | some v => Except.ok ⟨parts.getD 1 [], v, ts⟩

structure DisconnMsg where
  uid : Str
deriving DecidableEq, Repr

/-- Modelled from the spec: `DisconnMsg::from_msg` is invoked by the
reader (src/cloud/src/handlers.rs:123) but its definition is absent from
the sources of both revisions; spec §4.1 fixes the frame `DISCONN#<uid>`,
arity 2 for DISCONN, a tag match, and a uid of exactly 36 characters, with
the same error taxonomy as the other decoders. -/
def DisconnMsg.from_msg (msg : Str) : Except DecodeErr DisconnMsg :=
  let parts := splitHash msg
  if parts.length ≠ 2 then Except.error DecodeErr.invalidMessage
  else if parts.headD [] ≠ "DISCONN".data then Except.error DecodeErr.invalidProtocol
  else if rustLen (parts.getD 1 []) ≠ 36 then Except.error DecodeErr.invalidId
  else Except.ok ⟨parts.getD 1 []⟩

structure AvgMsg where
  data : F64
  timestamp : Int
deriving DecidableEq, Repr

/-- Model of `AvgMsg::to_msg` (src/cloud/src/protocol.rs:113-115):
`format!("AVG#..#..", self.timestamp, self.data)` with `#` joints. -/
def AvgMsg.to_msg (m : AvgMsg) : Str :=
  "AVG#".data ++ showInt m.timestamp ++ '#' :: displayF64 m.data

structure Connection where
  id : Int
  uid : Str
  last_seen : Int
deriving DecidableEq, Repr

structure ReceivedMessage where
  id : Int
  uid : Str
  data : F64
  created_at : Int
deriving DecidableEq, Repr

structure QueuedMessage where
  id : Int
  message : Str
  created_at : Int
deriving DecidableEq, Repr

structure DeliveredMessage where
  uid : Str
  queued_message_id : Int
deriving DecidableEq, Repr

/-- Model of `add_connection` (src/cloud/src/db.rs:80-98): insert a
connection row with `last_seen = now`; `newId` models the
storage-assigned rowid. -/
def add_connection (now newId : Int) (uid : Str) (tbl : List Connection) : List Connection :=
  tbl ++ [⟨newId, uid, now⟩]

/-- Model of `get_connection` (src/cloud/src/db.rs:100-110): `SELECT *
FROM connections WHERE uid = ?1` with `fetch_one`, which errors when no
row matches; `none` models that error. -/
def get_connection (uid : Str) (tbl : List Connection) : Option Connection :=
  tbl.find? fun r => r.uid == uid

/-- Model of the SQLite comparison between the INTEGER column `id` and a
TEXT bind value: with the column's integer affinity the text is converted
when it is a well-formed integer literal, otherwise the operands keep
different storage classes and compare unequal.  (Real-literal text and
whitespace trimming are not modelled; the uids at issue are not numeric at
all.) -/
def sqliteIdEqText (id : Int) (s : Str) : Bool :=
  match parseI64 s with
  | some v => id == v
  | none => false

/-- Model of `update_connection` (src/cloud/src/db.rs:112-125):
`UPDATE connections SET last_seen = ?1 WHERE id = ?2` with `now` bound to
`?1` and the uid string bound to `?2` — the predicate compares the integer
`id` column with the uid text. -/
def update_connection (now : Int) (uid : Str) (tbl : List Connection) : List Connection :=
  tbl.map fun r => if sqliteIdEqText r.id uid then ⟨r.id, r.uid, now⟩ else r

/-- Model of `delete_connection` (src/src/db.rs:107-116 — the revision
where it is not commented out): `DELETE FROM connections WHERE uid = ?1`. -/
def delete_connection (uid : Str) (tbl : List Connection) : List Connection :=
  tbl.filter fun r => !(r.uid == uid)

/-- Model of `add_received_message` (src/cloud/src/db.rs:139-151): insert
`(uid, data, created_at)` with `created_at` taken from the frame's
timestamp field. -/
def add_received_message (newId : Int) (msg : SensorMsg) (tbl : List ReceivedMessage) :
    List ReceivedMessage :=
  tbl ++ [⟨newId, msg.uid, msg.data, msg.timestamp⟩]

/-- Model of `get_last_received_messages` (src/cloud/src/db.rs:153-165):
`SELECT * FROM received_messages ORDER BY created_at DESC LIMIT ?1`. -/
def get_last_received_messages (tbl : List ReceivedMessage) (limit : Nat) :
    List ReceivedMessage :=
  (List.insertionSort (fun a b => b.created_at ≤ a.created_at) tbl).take limit

/-- Model of `add_queued_message` (src/cloud/src/db.rs:167-180): insert
the payload with `created_at = now`. -/
def add_queued_message (newId : Int) (payload : Str) (now : Int)
    (tbl : List QueuedMessage) : List QueuedMessage :=
  tbl ++ [⟨newId, payload, now⟩]

/-- Model of `get_new_queued_messages` (src/cloud/src/db.rs:182-192):
`SELECT * FROM queued_messages WHERE id NOT IN (SELECT queued_message_id
FROM delivered_messages) ORDER BY created_at ASC`.  The subquery ranges
over ALL delivery marks: it does not restrict to the querying session's
uid — the function does not even receive a uid (the stray `.bind(0)` binds
a parameter the SQL never mentions). -/
def get_new_queued_messages (queued : List QueuedMessage)
    (delivered : List DeliveredMessage) : List QueuedMessage :=
  List.insertionSort (fun a b => a.created_at ≤ b.created_at)
    (queued.filter fun m => !(delivered.any fun d => d.queued_message_id == m.id))

/-- Pending-broadcast query as the spec words it (§4.4 step 2): all queued
messages not yet marked delivered to this session's uid — an anti-join of
the marks restricted to the given uid — ordered by `created_at`
ascending.  Stated for comparison with `get_new_queued_messages`. -/
def get_new_queued_messages_forUid (uid : Str) (queued : List QueuedMessage)
    (delivered : List DeliveredMessage) : List QueuedMessage :=
  List.insertionSort (fun a b => a.created_at ≤ b.created_at)
    (queued.filter fun m =>
      !(delivered.any fun d => d.queued_message_id == m.id && d.uid == uid))

/-- Model of `add_delivered_message` (src/cloud/src/db.rs:194-206): insert
the `(uid, queued_message_id)` mark. -/
def add_delivered_message (uid : Str) (queued_message_id : Int)
    (tbl : List DeliveredMessage) : List DeliveredMessage :=
  tbl ++ [⟨uid, queued_message_id⟩]

/-- Model of one tick of `avg_msg_service` (src/cloud/src/protocol.rs:118-160).
`fetchOk` models whether `get_last_received_messages` succeeded —
`unwrap_or(Vec::new())` turns a failure into the empty batch, which then
skips the tick like an empty table does.  A produced average is encoded
with `AvgMsg::to_msg` and appended to the queue stamped with the tick's
time. -/
def avg_msg_tick (now newId : Int) (fetchOk : Bool) (received : List ReceivedMessage)
    (queued : List QueuedMessage) : List QueuedMessage :=
  let messages := if fetchOk then get_last_received_messages received 5 else []
  if messages.length = 0 then queued
  else
    let avg := F64.divNat (messages.foldl (fun acc m => F64.add acc m.data) ⟨0, 1⟩)
      messages.length
    add_queued_message newId (AvgMsg.to_msg ⟨avg, now⟩) now queued

structure SessionState where
  connections : List Connection
  readings : List ReceivedMessage
  active : Bool
deriving DecidableEq, Repr

/-- Model of one iteration of the reader loop `ws_reader`
(src/cloud/src/handlers.rs:79-162) on one received text frame.  The
spawned persistence task is modelled as executed with storage succeeding
(its failures are logged and swallowed).  Returns the updated state and
whether the loop continues (`false` = the handler returns, ending the
session's reader). -/
def ws_reader_step (now newRid : Int) (uid : Str) (data : Str) (st : SessionState) :
    SessionState × Bool :=
  match (match get_protocol data with | .ok p => p | .error _ => Protocol.INVALID) with
  | Protocol.SENSOR =>
    match SensorMsg.from_msg data with
    | .ok sensor_data =>
      if sensor_data.uid ≠ uid then (st, false)
      else
        (⟨update_connection now sensor_data.uid st.connections,
          add_received_message newRid sensor_data st.readings,
          st.active⟩, true)
    | .error _ => (st, false)
  | Protocol.DISCONN =>
    match DisconnMsg.from_msg data with
    | .ok disconn_data =>
      if disconn_data.uid ≠ uid then (st, false)
      else (⟨delete_connection disconn_data.uid st.connections, st.readings, false⟩, false)
    | .error _ => (st, false)
  | _ => (st, false)

/-- Model of the writer's per-tick batch loop
(src/cloud/src/handlers.rs:196-214).  `sendOk` and `markOk` model the
success of the socket send and of `add_delivered_message` respectively.
Returns the delivered-marks table, the payloads actually sent, and whether
the writer returned early (send failure). -/
def ws_writer_batch (uid : Str) (sendOk : Str → Bool) (markOk : Int → Bool) :
    List QueuedMessage → List DeliveredMessage → List DeliveredMessage × List Str × Bool
  | [], delivered => (delivered, [], false)
  | m :: rest, delivered =>
    if sendOk m.message then
      let delivered2 :=
        if markOk m.id then add_delivered_message uid m.id delivered else delivered
      let r := ws_writer_batch uid sendOk markOk rest delivered2
      (r.1, m.message :: r.2.1, r.2.2)
    else (delivered, [], true)

structure WriterTickResult where
  sent : List Str
  closedSocket : Bool
  terminated : Bool
  delivered : List DeliveredMessage
deriving DecidableEq, Repr

/-- Model of one tick of `ws_writer` (src/cloud/src/handlers.rs:174-215):
when the shared `active` flag is false, send a close frame and return;
otherwise query the pending queue (a failed query skips the tick with
`continue`) and run the batch loop. -/
def ws_writer_tick (uid : Str) (active : Bool) (queryOk : Bool)
    (sendOk : Str → Bool) (markOk : Int → Bool)
    (queued : List QueuedMessage) (delivered : List DeliveredMessage) : WriterTickResult :=
  if !active then ⟨[], true, true, delivered⟩
  else if !queryOk then ⟨[], false, false, delivered⟩
  else
    let r := ws_writer_batch uid sendOk markOk (get_new_queued_messages queued delivered)
      delivered
    ⟨r.2.1, false, r.2.2, r.1⟩

inductive HandshakeResult
  | closed
  | registered (uid : Str) (isNew : Bool)
deriving DecidableEq, Repr

/-- Model of the handshake phase of `handle_socket`
(src/cloud/src/handlers.rs:22-50): block for exactly one frame (`none` =
socket error or stream end), decode it as CONN or return, then create the
connection row only when the uid lookup finds none. -/
def handle_socket_handshake (now newId : Int) (frame : Option Str)
    (connections : List Connection) : List Connection × HandshakeResult :=
  match frame with
  | none => (connections, HandshakeResult.closed)
  | some data =>
    match ConnMsg.from_msg data with
    | .error _ => (connections, HandshakeResult.closed)
    | .ok m =>
      match get_connection m.uid connections with
      | some _ => (connections, HandshakeResult.registered m.uid false)
      | none =>
        (add_connection now newId m.uid connections, HandshakeResult.registered m.uid true)

/-- Concrete 36-character uid used by witnesses and counterexamples. -/
def uidA : Str := List.replicate 36 'a'

/-- Second concrete 36-character uid, distinct from `uidA`. -/
def uidB : Str := List.replicate 36 'b'

theorem splitHash_ne_nil (s : Str) : splitHash s ≠ [] := by
  cases s with
  | nil => simp [splitHash]
  | cons c cs =>
    simp only [splitHash]
    by_cases h : c = '#'
    · simp [h]
    · simp only [if_neg h]
      cases splitHash cs <;> simp

theorem splitHash_single (s : Str) (h : '#' ∉ s) : splitHash s = [s] := by
  induction s with
  | nil => rfl
  | cons c cs ih =>
    simp only [List.mem_cons, not_or] at h
    have hc : ¬ c = '#' := fun hh => h.1 hh.symm
    simp [splitHash, hc, ih h.2]

theorem splitHash_append (a b : Str) (h : '#' ∉ a) :
    splitHash (a ++ '#' :: b) = a :: splitHash b := by
  induction a with
  | nil => simp [splitHash]
  | cons c cs ih =>
    simp only [List.mem_cons, not_or] at h
    have hc : ¬ c = '#' := fun hh => h.1 hh.symm
    have hi := ih h.2
    show splitHash (c :: (cs ++ '#' :: b)) = (c :: cs) :: splitHash b
    simp only [splitHash, if_neg hc]
    rw [hi]

theorem headCh_cons (c : Char) (r : Str) : headCh (c :: r) = c := rfl

theorem ne_nil_eq_headCh_tail (l : Str) (h : l ≠ []) : l = headCh l :: l.tail := by
  cases l with
  | nil => exact absurd rfl h
  | cons a r => rfl

theorem hash_not_digit : isDigitCh '#' = false := by decide

theorem takeDigits_spec (s : Str) :
    s = (takeDigits s).1 ++ (takeDigits s).2 ∧ ∀ c ∈ (takeDigits s).1, isDigitCh c = true := by
  induction s with
  | nil => simp [takeDigits]
  | cons c cs ih =>
    by_cases h : isDigitCh c
    · simp only [takeDigits, if_pos h]
      refine ⟨by simpa using ih.1, ?_⟩
      intro x hx
      rcases List.mem_cons.mp hx with h1 | h2
      · exact h1 ▸ h
      · exact ih.2 x h2
    · simp [takeDigits, if_neg h]

theorem parseDigitsAll_noHash (s : Str) (n : Nat) (h : parseDigitsAll s = some n) :
    '#' ∉ s := by
  simp only [parseDigitsAll] at h
  by_cases h1 : (takeDigits s).1 = []
  · simp [h1] at h
  · by_cases h2 : (takeDigits s).2 ≠ []
    · simp [h1, h2] at h
    · simp only [not_not] at h2
      intro hmem
      have hs := takeDigits_spec s
      rw [hs.1, h2, List.append_nil] at hmem
      have := hs.2 '#' hmem
      rw [hash_not_digit] at this
      exact Bool.false_ne_true this

theorem parseI64_noHash (s : Str) (t : Int) (h : parseI64 s = some t) : '#' ∉ s := by
  match s with
  | [] => simp
  | c :: r =>
    simp only [parseI64] at h
    by_cases hp : c = '+'
    · subst hp
      simp only [if_pos rfl] at h
      cases hd : parseDigitsAll r with
      | none => rw [hd] at h; simp at h
      | some n =>
        have hn := parseDigitsAll_noHash _ _ hd
        intro hmem
        rcases List.mem_cons.mp hmem with hc | hr
        · exact absurd hc.symm (by decide)
        · exact hn hr
    · by_cases hm : c = '-'
      · subst hm
        simp only [if_neg hp, if_pos rfl] at h
        cases hd : parseDigitsAll r with
        | none => rw [hd] at h; simp at h
        | some n =>
          have hn := parseDigitsAll_noHash _ _ hd
          intro hmem
          rcases List.mem_cons.mp hmem with hc | hr
          · exact absurd hc.symm (by decide)
          · exact hn hr
      · simp only [if_neg hp, if_neg hm] at h
        cases hd : parseDigitsAll (c :: r) with
        | none => rw [hd] at h; simp at h
        | some n => exact parseDigitsAll_noHash _ _ hd

theorem parseExpAfterE_noHash (s : Str) (e : Int) (h : parseExpAfterE s = some e) :
    '#' ∉ s := by
  match s with
  | [] => simp
  | c :: r =>
    simp only [parseExpAfterE] at h
    by_cases hp : c = '+'
    · subst hp
      simp only [if_pos rfl] at h
      cases hd : parseDigitsAll r with
      | none => rw [hd] at h; simp at h
      | some n =>
        have hn := parseDigitsAll_noHash _ _ hd
        intro hmem
        rcases List.mem_cons.mp hmem with hc | hr
        · exact absurd hc.symm (by decide)
        · exact hn hr
    · by_cases hm : c = '-'
      · subst hm
        simp only [if_neg hp, if_pos rfl] at h
        cases hd : parseDigitsAll r with
        | none => rw [hd] at h; simp at h
        | some n =>
          have hn := parseDigitsAll_noHash _ _ hd
          intro hmem
          rcases List.mem_cons.mp hmem with hc | hr
          · exact absurd hc.symm (by decide)
          · exact hn hr
      · simp only [if_neg hp, if_neg hm] at h
        cases hd : parseDigitsAll (c :: r) with
        | none => rw [hd] at h; simp at h
        | some n => exact parseDigitsAll_noHash _ _ hd

theorem parseF64body_noHash (s : Str) (v : F64) (h : parseF64body s = some v) :
    '#' ∉ s := by
  simp only [parseF64body] at h
  intro hmem
  have hsplit := takeDigits_spec s
  by_cases hdot : headCh (takeDigits s).2 = '.'
  · simp only [if_pos hdot] at h
    by_cases hemp : (takeDigits s).1 = [] ∧ (takeDigits (takeDigits s).2.tail).1 = []
    · simp [hemp] at h
    · simp only [if_neg hemp, Option.some_bind] at h
      have hne2 : (takeDigits s).2 ≠ [] := by
        intro h0
        rw [h0] at hdot
        exact absurd hdot (by decide)
      have hcons : (takeDigits s).2 = '.' :: (takeDigits s).2.tail := by
        have := ne_nil_eq_headCh_tail _ hne2
        rw [hdot] at this
        exact this
      have hsplit2 := takeDigits_spec (takeDigits s).2.tail
      rw [hsplit.1, hcons] at hmem
      rcases List.mem_append.mp hmem with h1 | h2
      · have := hsplit.2 '#' h1
        rw [hash_not_digit] at this
        exact Bool.false_ne_true this
      · rcases List.mem_cons.mp h2 with h3 | h4
        · exact absurd h3.symm (by decide)
        · rw [hsplit2.1] at h4
          rcases List.mem_append.mp h4 with h5 | h6
          · have := hsplit2.2 '#' h5
            rw [hash_not_digit] at this
            exact Bool.false_ne_true this
          · by_cases hr0 : (takeDigits (takeDigits s).2.tail).2 = []
            · rw [hr0] at h6; simp at h6
            · simp only [if_neg hr0] at h
              by_cases hre : headCh (takeDigits (takeDigits s).2.tail).2 = 'e' ∨
                  headCh (takeDigits (takeDigits s).2.tail).2 = 'E'
              · simp only [if_pos hre] at h
                cases hexp : parseExpAfterE (takeDigits (takeDigits s).2.tail).2.tail with
                | none => rw [hexp] at h; simp at h
                | some e =>
                  have hnoe := parseExpAfterE_noHash _ _ hexp
                  have hconsE := ne_nil_eq_headCh_tail _ hr0
                  rw [hconsE] at h6
                  rcases List.mem_cons.mp h6 with h7 | h8
                  · rcases hre with he | he <;> rw [he] at h7 <;>
                      exact absurd h7.symm (by decide)
                  · exact hnoe h8
              · simp [hre] at h
  · simp only [if_neg hdot] at h
    by_cases hemp : (takeDigits s).1 = []
    · simp [hemp] at h
    · simp only [if_neg hemp, Option.some_bind] at h
      rw [hsplit.1] at hmem
      rcases List.mem_append.mp hmem with h1 | h6
      · have := hsplit.2 '#' h1
        rw [hash_not_digit] at this
        exact Bool.false_ne_true this
      · by_cases hr0 : (takeDigits s).2 = []
        · rw [hr0] at h6; simp at h6
        · simp only [if_neg hr0] at h
          by_cases hre : headCh (takeDigits s).2 = 'e' ∨ headCh (takeDigits s).2 = 'E'
          · simp only [if_pos hre] at h
            cases hexp : parseExpAfterE (takeDigits s).2.tail with
            | none => rw [hexp] at h; simp at h
            | some e =>
              have hnoe := parseExpAfterE_noHash _ _ hexp
              have hconsE := ne_nil_eq_headCh_tail _ hr0
              rw [hconsE] at h6
              rcases List.mem_cons.mp h6 with h7 | h8
              · rcases hre with he | he <;> rw [he] at h7 <;>
                  exact absurd h7.symm (by decide)
              · exact hnoe h8
          · simp [hre] at h

theorem parseF64_noHash (s : Str) (v : F64) (h : parseF64 s = some v) : '#' ∉ s := by
  match s with
  | [] => simp
  | c :: r =>
    simp only [parseF64] at h
    by_cases hp : c = '+'
    · subst hp
      simp only [if_pos rfl] at h
      have hn := parseF64body_noHash _ _ h
      intro hmem
      rcases List.mem_cons.mp hmem with hc | hr
      · exact absurd hc.symm (by decide)
      · exact hn hr
    · by_cases hm : c = '-'
      · subst hm
        simp only [if_neg hp, if_pos rfl] at h
        cases hb : parseF64body r with
        | none => rw [hb] at h; simp at h
        | some w =>
          have hn := parseF64body_noHash _ _ hb
          intro hmem
          rcases List.mem_cons.mp hmem with hc | hr
          · exact absurd hc.symm (by decide)
          · exact hn hr
      · simp only [if_neg hp, if_neg hm] at h
        exact parseF64body_noHash _ _ h

theorem splitHash_conn_frame (uid : Str) (hh : '#' ∉ uid) :
    splitHash ("CONN#".data ++ uid) = ["CONN".data, uid] := by
  have he : "CONN#".data ++ uid = "CONN".data ++ '#' :: uid := rfl
  rw [he, splitHash_append _ _ (by decide), splitHash_single _ hh]

/-- C3 counterexample: the claim quantifies over every uid string of
length exactly 36, but a uid containing `#` changes the split arity, so
decoding `CONN#<uid>` fails with `InvalidMessage` instead of succeeding
(and instead of `InvalidId`). -/
theorem c3_counterexample :
    rustLen (List.replicate 36 '#') = 36 ∧
    ConnMsg.from_msg ("CONN#".data ++ List.replicate 36 '#') =
      Except.error DecodeErr.invalidMessage := by decide

/-- C3 (amended): for every `#`-free uid of byte length exactly 36,
`CONN#<uid>` decodes to a handshake carrying that uid, and for every
`#`-free uid of any other byte length decoding fails with `InvalidId`. -/
theorem c3_conn_decode (uid : Str) (hh : '#' ∉ uid) :
    (rustLen uid = 36 →
      ConnMsg.from_msg ("CONN#".data ++ uid) = Except.ok ⟨uid⟩) ∧
    (rustLen uid ≠ 36 →
      ConnMsg.from_msg ("CONN#".data ++ uid) = Except.error DecodeErr.invalidId) := by
  have hsplit := splitHash_conn_frame uid hh
  constructor
  · intro h36
    unfold ConnMsg.from_msg
    rw [hsplit]
    simp [h36]
  · intro h36
    unfold ConnMsg.from_msg
    rw [hsplit]
    simp [h36]

theorem c3_conn_decode_witness :
    ConnMsg.from_msg ("CONN#".data ++ uidA) = Except.ok ⟨uidA⟩ :=
  (c3_conn_decode uidA (by decide)).1 (by decide)

/-- C4 counterexample: a 36-character uid containing `#` breaks the claim:
the frame splits into more than 4 fields and decoding fails with
`InvalidMessage` although ts is an integer string and val a float string. -/
theorem c4_counterexample :
    rustLen (List.replicate 36 '#') = 36 ∧
    parseI64 "0".data = some 0 ∧
    parseF64 "1.0".data = some ⟨10, 10⟩ ∧
    SensorMsg.from_msg ("SENSOR#".data ++ List.replicate 36 '#' ++ "#0#1.0".data) =
      Except.error DecodeErr.invalidMessage := by decide

/-- C4 (amended): for every `#`-free uid of byte length 36, every string
ts accepted by the i64 parser and every string val accepted by the f64
parser, decoding `SENSOR#<uid>#<ts>#<val>` yields exactly those uid,
timestamp and value fields; and every frame splitting into 3 or 5
`#`-separated fields fails with `InvalidMessage`. -/
theorem c4_sensor_roundtrip :
    (∀ (uid ts val : Str) (t : Int) (v : F64), '#' ∉ uid → rustLen uid = 36 →
      parseI64 ts = some t → parseF64 val = some v →
      SensorMsg.from_msg ("SENSOR#".data ++ uid ++ '#' :: ts ++ '#' :: val) =
        Except.ok ⟨uid, v, t⟩) ∧
    (∀ msg : Str, (splitHash msg).length = 3 ∨ (splitHash msg).length = 5 →
      SensorMsg.from_msg msg = Except.error DecodeErr.invalidMessage) := by
  constructor
  · intro uid ts val t v hh h36 hts hval
    have hts2 : '#' ∉ ts := parseI64_noHash ts t hts
    have hval2 : '#' ∉ val := parseF64_noHash val v hval
    have he : "SENSOR#".data ++ uid ++ '#' :: ts ++ '#' :: val =
        "SENSOR".data ++ '#' :: (uid ++ '#' :: (ts ++ '#' :: val)) := by
      simp [List.append_assoc]
    have hsplit : splitHash ("SENSOR#".data ++ uid ++ '#' :: ts ++ '#' :: val) =
        ["SENSOR".data, uid, ts, val] := by
      rw [he, splitHash_append _ _ (by decide), splitHash_append _ _ hh,
        splitHash_append _ _ hts2, splitHash_single _ hval2]
    unfold SensorMsg.from_msg
    rw [hsplit]
    simp only [List.length_cons, List.length_nil, List.headD_cons, List.getD_cons_succ,
      List.getD_cons_zero]
    rw [if_neg (by decide), if_neg (by decide), if_neg (by simp [h36]), hts, hval]
  · intro msg hlen
    unfold SensorMsg.from_msg
    rcases hlen with h3 | h5
    · rw [if_pos (by rw [h3]; decide)]
    · rw [if_pos (by rw [h5]; decide)]

theorem c4_sensor_roundtrip_witness :
    SensorMsg.from_msg ("SENSOR#".data ++ uidA ++ '#' :: "7".data ++ '#' :: "1.5".data) =
      Except.ok ⟨uidA, ⟨15, 10⟩, 7⟩ :=
  c4_sensor_roundtrip.1 uidA "7".data "1.5".data 7 ⟨15, 10⟩ (by decide) (by decide)
    (by decide) (by decide)

/-- C10: `get_protocol` is total — splitting on `#` always yields at least
one token, so the `parts[0]` access is in bounds; and any input whose
first token is not one of the four known tags (the empty string among
them) yields the invalid-protocol error rather than a protocol variant. -/
theorem c10_get_protocol_total (msg : Str) :
    splitHash msg ≠ [] ∧
    ((splitHash msg).headD [] ∉
        ["CONN".data, "SENSOR".data, "AVG".data, "DISCONN".data] →
      get_protocol msg = Except.error DecodeErr.invalidProtocol) ∧
    get_protocol [] = Except.error DecodeErr.invalidProtocol := by
  refine ⟨splitHash_ne_nil msg, ?_, by decide⟩
  intro hmem
  simp only [List.mem_cons, List.not_mem_nil, or_false, not_or] at hmem
  obtain ⟨h1, h2, h3, h4⟩ := hmem
  unfold get_protocol
  rw [if_neg h1, if_neg h2, if_neg h3, if_neg h4]

theorem c10_get_protocol_total_witness :
    get_protocol "XYZ#1".data = Except.error DecodeErr.invalidProtocol :=
  (c10_get_protocol_total "XYZ#1".data).2.1 (by decide)

/-- C1: evaluation at the failing input.  One queued broadcast with a
delivery mark recorded for client A only: the writer query — which takes
no uid at all — already returns the empty pending set, so it is empty for
client B as well although no mark exists for B; the spec's per-uid
anti-join still returns the broadcast for B.  Marking delivery for A
removes the message from every client's pending set. -/
theorem c1_delivery_not_per_uid :
    get_new_queued_messages [⟨1, "AVG#0#2".data, 10⟩] [⟨uidA, 1⟩] = [] ∧
    (∀ d ∈ [DeliveredMessage.mk uidA 1], ¬(d.uid = uidB ∧ d.queued_message_id = 1)) ∧
    get_new_queued_messages_forUid uidB [⟨1, "AVG#0#2".data, 10⟩] [⟨uidA, 1⟩] =
      [⟨1, "AVG#0#2".data, 10⟩] := by decide

/-- C2: `update_connection` never touches the row whose uid column
matches — its WHERE clause compares the integer `id` column with the bound
uid text, which matches no row for a non-numeric uid — so an accepted
SENSOR frame leaves every `last_seen` unchanged.  Evaluated at the failing
input: a registry holding exactly the row (id 1, uid A, last_seen 100),
updated at time 200, is left identical. -/
theorem c2_update_connection_misses :
    (∀ (now : Int) (tbl : List Connection), update_connection now uidA tbl = tbl) ∧
    update_connection 200 uidA [⟨1, uidA, 100⟩] = [⟨1, uidA, 100⟩] ∧ (100 : Int) ≠ 200 := by
  have hnum : parseI64 uidA = none := by decide
  refine ⟨?_, by decide, by decide⟩
  intro now tbl
  unfold update_connection
  have hf : ∀ r : Connection, sqliteIdEqText r.id uidA = false := by
    intro r
    unfold sqliteIdEqText
    rw [hnum]
  have : (fun r : Connection => if sqliteIdEqText r.id uidA then
      (⟨r.id, r.uid, now⟩ : Connection) else r) = fun r => r := by
    funext r
    rw [hf r, if_neg (by simp)]
  rw [this]
  simp

/-- C5: on an aggregator tick, a failed fetch (empty via `unwrap_or`) or
an empty readings table appends no queued message; a nonempty table
appends exactly one queued message whose payload is the AVG frame encoding
the arithmetic mean of the fetched batch — the at-most-5 most recently
created readings; and at exactly the readings with values 1.0, 2.0, 3.0
the produced payload is `AVG#<now>#2`, encoding the value 2. -/
theorem c5_avg_tick (now newId : Int) (received : List ReceivedMessage)
    (queued : List QueuedMessage) :
    (avg_msg_tick now newId false received queued = queued) ∧
    (received = [] → avg_msg_tick now newId true received queued = queued) ∧
    (received ≠ [] →
      avg_msg_tick now newId true received queued = queued ++
        [⟨newId,
          AvgMsg.to_msg
            ⟨F64.mean ((get_last_received_messages received 5).map fun m => m.data), now⟩,
          now⟩]) ∧
    (avg_msg_tick 100 7 true
        [⟨1, uidA, ⟨1, 1⟩, 1⟩, ⟨2, uidA, ⟨2, 1⟩, 2⟩, ⟨3, uidA, ⟨3, 1⟩, 3⟩] [] =
      [⟨7, "AVG#100#2".data, 100⟩]) := by
  refine ⟨?_, ?_, ?_, by decide⟩
  · unfold avg_msg_tick
    simp
  · intro h0
    subst h0
    unfold avg_msg_tick
    simp [get_last_received_messages]
  · intro hne
    have hlen : (get_last_received_messages received 5).length ≠ 0 := by
      unfold get_last_received_messages
      rw [List.length_take]
      have hperm := List.perm_insertionSort
        (fun a b : ReceivedMessage => b.created_at ≤ a.created_at) received
      rw [hperm.length_eq]
      have : received.length ≠ 0 := fun h => hne (List.length_eq_zero.mp h)
      omega
    unfold avg_msg_tick
    rw [if_pos rfl, if_neg hlen]
    unfold add_queued_message
    have hfold : ∀ (l : List ReceivedMessage) (a : F64),
        l.foldl (fun acc m => F64.add acc m.data) a = (l.map fun m => m.data).foldl F64.add a := by
      intro l
      induction l with
      | nil => intro a; rfl
      | cons x xs ih => intro a; simp [List.foldl_cons, ih]
    rw [hfold]
    unfold F64.mean
    rw [List.length_map]

theorem c5_avg_tick_witness :
    avg_msg_tick 100 7 true
        [⟨1, uidA, ⟨1, 1⟩, 1⟩, ⟨2, uidA, ⟨2, 1⟩, 2⟩, ⟨3, uidA, ⟨3, 1⟩, 3⟩] [] = [] ++
      [⟨7,
        AvgMsg.to_msg
          ⟨F64.mean ((get_last_received_messages
              [⟨1, uidA, ⟨1, 1⟩, 1⟩, ⟨2, uidA, ⟨2, 1⟩, 2⟩, ⟨3, uidA, ⟨3, 1⟩, 3⟩] 5).map
            fun m => m.data), 100⟩,
        100⟩] :=
  ((c5_avg_tick 100 7
    [⟨1, uidA, ⟨1, 1⟩, 1⟩, ⟨2, uidA, ⟨2, 1⟩, 2⟩, ⟨3, uidA, ⟨3, 1⟩, 3⟩] []).2.2.1
    (by decide))

/-- C6: a DISCONN frame bearing the session's own uid makes the reader
remove the connection rows for that uid, clear the shared active flag and
stop its loop; and any writer tick that observes `active = false` sends
the close frame and terminates with nothing sent — no pending-broadcast
query is consulted (the outcome is the same for every queue, mark table
and oracle) and the delivery marks are untouched. -/
theorem c6_disconn (now newRid : Int) (uid : Str) (st : SessionState)
    (hh : '#' ∉ uid) (h36 : rustLen uid = 36) :
    ws_reader_step now newRid uid ("DISCONN#".data ++ uid) st =
      (⟨delete_connection uid st.connections, st.readings, false⟩, false) ∧
    (∀ (queryOk : Bool) (sendOk : Str → Bool) (markOk : Int → Bool)
        (queued : List QueuedMessage) (delivered : List DeliveredMessage),
      ws_writer_tick uid false queryOk sendOk markOk queued delivered =
        ⟨[], true, true, delivered⟩) := by
  have hsplit : splitHash ("DISCONN#".data ++ uid) = ["DISCONN".data, uid] := by
    have he : "DISCONN#".data ++ uid = "DISCONN".data ++ '#' :: uid := rfl
    rw [he, splitHash_append _ _ (by decide), splitHash_single _ hh]
  constructor
  · have hgp : get_protocol ("DISCONN#".data ++ uid) = Except.ok Protocol.DISCONN := by
      unfold get_protocol
      rw [hsplit]
      simp only [List.headD_cons]
      rw [if_neg (by decide), if_neg (by decide), if_neg (by decide)]
      simp
    have hdm : DisconnMsg.from_msg ("DISCONN#".data ++ uid) = Except.ok ⟨uid⟩ := by
      unfold DisconnMsg.from_msg
      rw [hsplit]
      simp [h36]
    unfold ws_reader_step
    rw [hgp, hdm]
    simp
  · intro queryOk sendOk markOk queued delivered
    rfl

theorem c6_disconn_witness :
    ws_reader_step 0 0 uidA ("DISCONN#".data ++ uidA) ⟨[⟨1, uidA, 5⟩], [], true⟩ =
      (⟨delete_connection uidA [⟨1, uidA, 5⟩], [], false⟩, false) :=
  (c6_disconn 0 0 uidA ⟨[⟨1, uidA, 5⟩], [], true⟩ (by decide) (by decide)).1

/-- C7: in the writer's batch loop, a failed socket send terminates the
writer at once — the failed message gets no delivery mark and none of the
remaining messages is sent — while a successful send whose delivery-mark
insert fails leaves the marks unchanged for that message and continues
with the rest of the batch. -/
theorem c7_writer_send_mark (uid : Str) (sendOk : Str → Bool) (markOk : Int → Bool)
    (m : QueuedMessage) (rest : List QueuedMessage) (delivered : List DeliveredMessage) :
    (sendOk m.message = false →
      ws_writer_batch uid sendOk markOk (m :: rest) delivered = (delivered, [], true)) ∧
    (sendOk m.message = true → markOk m.id = false →
      ws_writer_batch uid sendOk markOk (m :: rest) delivered =
        ((ws_writer_batch uid sendOk markOk rest delivered).1,
          m.message :: (ws_writer_batch uid sendOk markOk rest delivered).2.1,
          (ws_writer_batch uid sendOk markOk rest delivered).2.2)) := by
  constructor
  · intro hs
    unfold ws_writer_batch
    rw [hs]
    simp
  · intro hs hm
    conv_lhs => rw [ws_writer_batch]
    rw [hs, hm]
    simp

theorem c7_writer_send_mark_witness :
    ws_writer_batch uidA (fun _ => false) (fun _ => true) [⟨1, "p".data, 0⟩] [] =
      ([], [], true) :=
  (c7_writer_send_mark uidA (fun _ => false) (fun _ => true) ⟨1, "p".data, 0⟩ [] []).1 rfl

/-- C8: a mid-session frame whose leading tag is outside the four known
tags, or that fails to decode as its tagged message type, or that is a
SENSOR frame embedding a uid different from the session's bound uid,
terminates the reader loop with the session state untouched: no reading
is persisted and no connection row is created, updated or deleted. -/
theorem c8_reader_fail_closed (now newRid : Int) (uid : Str) (data : Str) (st : SessionState)
    (h : get_protocol data = Except.error DecodeErr.invalidProtocol
      ∨ (get_protocol data = Except.ok Protocol.SENSOR ∧
          ∃ e, SensorMsg.from_msg data = Except.error e)
      ∨ (get_protocol data = Except.ok Protocol.DISCONN ∧
          ∃ e, DisconnMsg.from_msg data = Except.error e)
      ∨ (get_protocol data = Except.ok Protocol.SENSOR ∧
          ∃ sd, SensorMsg.from_msg data = Except.ok sd ∧ sd.uid ≠ uid)) :
    ws_reader_step now newRid uid data st = (st, false) := by
  unfold ws_reader_step
  rcases h with h1 | ⟨h2, e, he⟩ | ⟨h3, e, he⟩ | ⟨h4, sd, hsd, hne⟩
  · rw [h1]
  · rw [h2]
    simp [he]
  · rw [h3]
    simp [he]
  · rw [h4]
    simp [hsd, hne]

theorem c8_reader_fail_closed_witness :
    ws_reader_step 0 0 uidA "FOO".data ⟨[], [], true⟩ = (⟨[], [], true⟩, false) :=
  c8_reader_fail_closed 0 0 uidA "FOO".data ⟨[], [], true⟩ (Or.inl (by decide))

/-- C9: during handshake, a missing first frame or one that does not
decode as CONN closes the socket with the connection table untouched; a
successful CONN whose uid is already registered changes nothing; and a
successful CONN for an unregistered uid appends exactly one new connection
row carrying `last_seen = now`. -/
theorem c9_handshake (now newId : Int) (frame : Str) (connections : List Connection) :
    handle_socket_handshake now newId none connections =
      (connections, HandshakeResult.closed) ∧
    ((∃ e, ConnMsg.from_msg frame = Except.error e) →
      handle_socket_handshake now newId (some frame) connections =
        (connections, HandshakeResult.closed)) ∧
    (∀ m : ConnMsg, ConnMsg.from_msg frame = Except.ok m →
      ((∃ r, get_connection m.uid connections = some r) →
        handle_socket_handshake now newId (some frame) connections =
          (connections, HandshakeResult.registered m.uid false)) ∧
      (get_connection m.uid connections = none →
        handle_socket_handshake now newId (some frame) connections =
          (connections ++ [⟨newId, m.uid, now⟩], HandshakeResult.registered m.uid true))) := by
  refine ⟨rfl, ?_, ?_⟩
  · rintro ⟨e, he⟩
    unfold handle_socket_handshake
    simp [he]
  · intro m hm
    constructor
    · rintro ⟨r, hr⟩
      unfold handle_socket_handshake
      simp [hm, hr]
    · intro hr
      unfold handle_socket_handshake
      simp [hm, hr, add_connection]

theorem c9_handshake_witness :
    handle_socket_handshake 0 5 (some ("CONN#".data ++ uidA)) [] =
      ([] ++ [⟨5, uidA, 0⟩], HandshakeResult.registered uidA true) :=
  ((c9_handshake 0 5 ("CONN#".data ++ uidA) []).2.2 ⟨uidA⟩ (by decide)).2 (by decide)
